import Mathlib

/-!
Verification development for the Smallbank playlist generator
(`perf/smallbank_workload/src/playlist.rs`).

The Rust source is shallowly embedded as executable Lean definitions:

* machine integers are `Nat`/`Int` with explicit `% 2^32` truncation exactly
  where the source performs an `as u32`/`as i32` cast;
* the random source (`rand::StdRng`) is modelled as an abstract stream
  `Nat → Nat` together with a cursor; `gen_range(low, high)` consumes one
  stream value and returns `low + s cursor % (high - low)`, and models the
  library's `assert!(low < high)` panic by returning `none` when `low ≥ high`;
* process aborts (`panic!`, `Option::unwrap`, out-of-bounds `Vec::remove`,
  `LinkedHashMap` index panics) are modelled as explicit abort values, kept
  distinct from error values actually returned through the declared
  `Result<_, PlaylistError>` type;
* the rejection-sampling loop `next_non_matching_in_range` is given explicit
  fuel; exhausting the fuel models non-termination of the source loop;
* external collaborators (Sha512, the protobuf encoder, the signer, the YAML
  scanner/emitter) are parameters of the embedding, per their interface.
-/

/-! ## The YAML document model (yaml_rust::Yaml)

Mirrors the `Yaml` enum of the `yaml-rust` crate: `Real`, `Integer`,
`String`, `Boolean`, `Array`, `Hash`, `Alias`, `Null`, `BadValue`.  The
`Hash` is a `LinkedHashMap<Yaml, Yaml>` preserving insertion order; it is
modelled as an association list. -/
inductive Yaml where
  | real (r : String)
  | integer (i : ℤ)
  | string (s : String)
  | boolean (b : Bool)
  | array (a : List Yaml)
  | hash (h : List (Yaml × Yaml))
  | alias (a : ℕ)
  | null
  | badValue

/-- `Yaml::as_str`: `Some` exactly on the `String` variant. -/
def Yaml.asStr : Yaml → Option String
  | .string s => some s
  | _ => none

/-- `Yaml::as_i64`: `Some` exactly on the `Integer` variant. -/
def Yaml.asI64 : Yaml → Option ℤ
  | .integer i => some i
  | _ => none

/-- `Yaml::as_hash`: `Some` exactly on the `Hash` variant. -/
def Yaml.asHash : Yaml → Option (List (Yaml × Yaml))
  | .hash h => some h
  | _ => none

/-- `Yaml::as_vec`: `Some` exactly on the `Array` variant. -/
def Yaml.asVec : Yaml → Option (List Yaml)
  | .array a => some a
  | _ => none

/-- `LinkedHashMap::get` with a `Yaml::String` key.  Every key the source
looks up is `Yaml::from_str` of a plain identifier literal, which the
`yaml-rust` parser turns into `Yaml::String`; a stored key equals such a key
iff it is the `String` variant with the same contents (the crate's derived
`PartialEq`). -/
def hashGet : List (Yaml × Yaml) → String → Option Yaml
  | [], _ => none
  | (k, v) :: rest, key =>
    match k with
    | .string s => if s = key then some v else hashGet rest key
    | _ => hashGet rest key

/-! ## The transaction-record data model

Modelled from the spec: the protobuf-generated message
`SmallbankTransactionPayload` (its Rust source is generated code outside this
repository snapshot); §3 of the spec gives the tagged union of six variants
with their `u32`/`i32`/string fields, which matches every accessor used by
`playlist.rs`. -/
inductive SBPayload where
  | createAccount (customer_id : ℕ) (customer_name : String)
      (initial_savings_balance initial_checking_balance : ℕ)
  | depositChecking (customer_id amount : ℕ)
  | writeCheck (customer_id amount : ℕ)
  | transactSavings (customer_id : ℕ) (amount : ℤ)
  | sendPayment (source_customer_id dest_customer_id amount : ℕ)
  | amalgamate (source_customer_id dest_customer_id : ℕ)
  deriving DecidableEq, Repr

/-- `2^32`, the modulus of `as u32` casts. -/
def u32Size : ℕ := 4294967296

/-- Rust `as u32` applied to an `i64` value: keep the low 32 bits. -/
def toU32 (i : ℤ) : ℕ := (i % (4294967296 : ℤ)).toNat

/-- Rust `as i32` applied to an `i64` value: keep the low 32 bits,
reinterpreted as two's-complement. -/
def toI32 (i : ℤ) : ℤ :=
  if i % 4294967296 < 2147483648 then i % 4294967296 else i % 4294967296 - 4294967296

/-- Fields lie within the widths the Rust struct declares (`u32` ids,
balances and amounts; `i32` transact-savings amount). -/
def validPayload : SBPayload → Prop
  | .createAccount cid _ sb cb => cid < u32Size ∧ sb < u32Size ∧ cb < u32Size
  | .depositChecking cid a => cid < u32Size ∧ a < u32Size
  | .writeCheck cid a => cid < u32Size ∧ a < u32Size
  | .transactSavings cid a =>
      cid < u32Size ∧ -(2147483648 : ℤ) ≤ a ∧ a < 2147483648
  | .sendPayment src dst a => src < u32Size ∧ dst < u32Size ∧ a < u32Size
  | .amalgamate src dst => src < u32Size ∧ dst < u32Size

instance validPayload.decidable (p : SBPayload) : Decidable (validPayload p) := by
  cases p <;> (unfold validPayload; infer_instance)

/-! ## Structured-text encode: `impl From<SmallbankTransactionPayload> for Yaml`

Each variant becomes a `Yaml::Hash` whose keys are inserted in the source's
order; `Yaml::from_str` of each identifier literal is `Yaml::String`, and a
`u32` (resp. `i32`) field widened by `as i64` is its numeric value. -/
def payloadToYaml : SBPayload → Yaml
  | .createAccount cid nm sb cb =>
      .hash [(.string "transaction_type", .string "create_account"),
             (.string "customer_id", .integer cid),
             (.string "customer_name", .string nm),
             (.string "initial_savings_balance", .integer sb),
             (.string "initial_checking_balance", .integer cb)]
  | .depositChecking cid a =>
      .hash [(.string "transaction_type", .string "deposit_checking"),
             (.string "customer_id", .integer cid),
             (.string "amount", .integer a)]
  | .writeCheck cid a =>
      .hash [(.string "transaction_type", .string "write_check"),
             (.string "customer_id", .integer cid),
             (.string "amount", .integer a)]
  | .transactSavings cid a =>
      .hash [(.string "transaction_type", .string "transact_savings"),
             (.string "customer_id", .integer cid),
             (.string "amount", .integer a)]
  | .sendPayment src dst a =>
      .hash [(.string "transaction_type", .string "send_payment"),
             (.string "source_customer_id", .integer src),
             (.string "dest_customer_id", .integer dst),
             (.string "amount", .integer a)]
  | .amalgamate src dst =>
      .hash [(.string "transaction_type", .string "amalgamate"),
             (.string "source_customer_id", .integer src),
             (.string "dest_customer_id", .integer dst)]

/-! ## Structured-text decode: `impl From<&Yaml> for SmallbankTransactionPayload`

The source conversion panics on every malformed input; the abort reasons are
modelled explicitly.  `Except.error` here is a modelled process abort, NOT a
value of the declared `Result` error type (`PlaylistError` below has no
decode variants at all). -/
inductive RustPanic where
  /-- `panic!("should be a hash map!")` -/
  | notAHash
  /-- `LinkedHashMap` `Index` panic `"no entry found for key"` when a looked-up
  key is absent. -/
  | keyNotFound (key : String)
  /-- `panic!("No transaction_type specified")` (key present, not a string). -/
  | noTransactionType
  /-- `panic!(format!("unknown transaction_type: {}", txn_type))` -/
  | unknownTransactionType (name : String)
  /-- `Option::unwrap` on `None` (field present with the wrong type). -/
  | unwrapNone
  /-- `Vec::remove(0)` on an empty vector in `load_yaml_array`. -/
  | removeOutOfBounds
  deriving DecidableEq, Repr

/-- `txn_hash[&Yaml::from_str(key)].as_i64().unwrap() as u32` -/
def getU32 (h : List (Yaml × Yaml)) (key : String) : Except RustPanic ℕ :=
  match hashGet h key with
  | none => .error (.keyNotFound key)
  | some v =>
    match v.asI64 with
    | none => .error .unwrapNone
    | some i => .ok (toU32 i)

/-- `txn_hash[&Yaml::from_str(key)].as_i64().unwrap() as i32` -/
def getI32 (h : List (Yaml × Yaml)) (key : String) : Except RustPanic ℤ :=
  match hashGet h key with
  | none => .error (.keyNotFound key)
  | some v =>
    match v.asI64 with
    | none => .error .unwrapNone
    | some i => .ok (toI32 i)

/-- `txn_hash[&Yaml::from_str(key)].as_str().unwrap().to_string()` -/
def getStr (h : List (Yaml × Yaml)) (key : String) : Except RustPanic String :=
  match hashGet h key with
  | none => .error (.keyNotFound key)
  | some v =>
    match v.asStr with
    | none => .error .unwrapNone
    | some s => .ok s

/-- The `match` over the resolved `transaction_type` string.  Rust's `match`
on `&str` literals tests the arms in order; fields of the resolved variant
are extracted in the source's order, the first abort winning. -/
def dispatchType (h : List (Yaml × Yaml)) (name : String) : Except RustPanic SBPayload :=
  if name = "create_account" then do
    let cid ← getU32 h "customer_id"
    let nm ← getStr h "customer_name"
    let sb ← getU32 h "initial_savings_balance"
    let cb ← getU32 h "initial_checking_balance"
    pure (.createAccount cid nm sb cb)
  else if name = "deposit_checking" then do
    let cid ← getU32 h "customer_id"
    let a ← getU32 h "amount"
    pure (.depositChecking cid a)
  else if name = "write_check" then do
    let cid ← getU32 h "customer_id"
    let a ← getU32 h "amount"
    pure (.writeCheck cid a)
  else if name = "transact_savings" then do
    let cid ← getU32 h "customer_id"
    let a ← getI32 h "amount"
    pure (.transactSavings cid a)
  else if name = "send_payment" then do
    let src ← getU32 h "source_customer_id"
    let dst ← getU32 h "dest_customer_id"
    let a ← getU32 h "amount"
    pure (.sendPayment src dst a)
  else if name = "amalgamate" then do
    let src ← getU32 h "source_customer_id"
    let dst ← getU32 h "dest_customer_id"
    pure (.amalgamate src dst)
  else .error (.unknownTransactionType name)

/-- `SmallbankTransactionPayload::from(&Yaml)`. -/
def yamlToPayload (y : Yaml) : Except RustPanic SBPayload :=
  match y.asHash with
  | none => .error .notAHash
  | some txnHash =>
    match hashGet txnHash "transaction_type" with
    | none => .error (.keyNotFound "transaction_type")
    | some tv =>
      match tv.asStr with
      | none => .error .noTransactionType
      | some name => dispatchType txnHash name

/-- The decode loop of `read_smallbank_playlist`: convert each element in
order, the first abort winning. -/
def yamlsToPayloads : List Yaml → Except RustPanic (List SBPayload)
  | [] => .ok []
  | y :: ys =>
    match yamlToPayload y with
    | .error e => .error e
    | .ok p =>
      match yamlsToPayloads ys with
      | .error e => .error e
      | .ok ps => .ok (p :: ps)

/-! ## The playlist-reading path -/

/-- The code's `PlaylistError` enum, verbatim (payloads elided as they are
opaque external error values).  Note the absence of any
`InvalidConfiguration`, `UnknownTransactionType`, `MissingTransactionType`,
`MissingField` or `TypeMismatch` variant. -/
inductive PlaylistErrorM where
  | ioError
  | yamlOutputError
  | yamlInputError
  | messageError
  | signingError
  deriving DecidableEq, Repr

/-- Outcome of `read_smallbank_playlist`, distinguishing a value returned
through the declared `Result` type (`ok`/`err`) from a process abort
(`panicked`). -/
inductive ReadResult where
  | ok (ps : List SBPayload)
  | err (e : PlaylistErrorM)
  | panicked (p : RustPanic)
  deriving DecidableEq, Repr

/-- `load_yaml_array`: `yaml.remove(0)` panics on an empty document list;
`element.as_vec().cloned().unwrap()` panics when the first document is not
an array. -/
def load_yaml_array (docs : List Yaml) : Except RustPanic (List Yaml) :=
  match docs with
  | [] => .error .removeOutOfBounds
  | d :: _ =>
    match d.asVec with
    | none => .error .unwrapNone
    | some arr => .ok arr

/-- `read_smallbank_playlist`, modelled from the already-read input string
onward: the argument is the result of `YamlLoader::load_from_str` (the YAML
scanner is external; its error payload is opaque).  A scan error is returned
as `PlaylistError::YamlInputError`; afterwards `load_yaml_array` and the
per-element conversions can only succeed or abort. -/
def read_smallbank_playlist (parseResult : Except Unit (List Yaml)) : ReadResult :=
  match parseResult with
  | .error _ => .err .yamlInputError
  | .ok docs =>
    match load_yaml_array docs with
    | .error pc => .panicked pc
    | .ok arr =>
      match yamlsToPayloads arr with
      | .error pc => .panicked pc
      | .ok ps => .ok ps

/-! ## Address derivation -/

/-- The two hex characters of `format!("{:02x}", b)` for a byte `b < 256`. -/
def byteHexChars (b : ℕ) : List Char :=
  [Nat.digitChar (b / 16), Nat.digitChar (b % 16)]

/-- `bytes_to_hex_str`: map each byte to its two lowercase hex digits and
join with the empty separator. -/
def bytes_to_hex_str (bs : List ℕ) : String :=
  String.mk ((bs.map byteHexChars).flatten)

/-- UTF-8 bytes of a string of ASCII digits (`to_string().as_bytes()`). -/
def strBytes (str : String) : List ℕ := str.toList.map Char.toNat

/-- `customer_id_address`.  The Sha512 primitive is an external collaborator
(a function from a byte buffer to a 64-byte digest) and is passed in as
`hashFn`.  The source takes the first 32 bytes of the hex string, which for
an ASCII string are its first 32 characters, and prepends `"332514"`. -/
def customer_id_address (hashFn : List ℕ → List ℕ) (customer_id : ℕ) : String :=
  let hex := bytes_to_hex_str (hashFn (strBytes (Nat.repr customer_id)))
  "332514" ++ String.mk (hex.toList.take 32)

/-- Lowercase-hex character test. -/
def isLowerHexChar (c : Char) : Bool :=
  (('0' ≤ c) && (c ≤ '9')) || (('a' ≤ c) && (c ≤ 'f'))

/-! ## The envelope header -/

/-- The fields of `TransactionHeader` that `process_smallbank_playlist`
sets.  The nonce, public key and payload bytes come from external
collaborators (wall clock, signer, protobuf encoder) and are parameters. -/
structure TransactionHeaderM where
  familyName : String
  familyVersion : String
  nonce : String
  inputs : List String
  outputs : List String
  payloadSha512 : String
  signerPubkey : String
  batcherPubkey : String
  deriving DecidableEq, Repr

/-- `make_addresses`: one address per customer id referenced by the variant,
source before destination for the two-party variants. -/
def make_addresses (hashFn : List ℕ → List ℕ) : SBPayload → List String
  | .createAccount cid _ _ _ => [customer_id_address hashFn cid]
  | .depositChecking cid _ => [customer_id_address hashFn cid]
  | .writeCheck cid _ => [customer_id_address hashFn cid]
  | .transactSavings cid _ => [customer_id_address hashFn cid]
  | .sendPayment src dst _ =>
      [customer_id_address hashFn src, customer_id_address hashFn dst]
  | .amalgamate src dst =>
      [customer_id_address hashFn src, customer_id_address hashFn dst]

/-- Modelled from the spec: "the Address Deriver applied to every customer id
referenced by the variant (one address for single-party variants, two for
SendPayment/Amalgamate)" — the spec-side list of referenced customer ids,
for comparison with the source's `make_addresses`. -/
def specReferencedIds : SBPayload → List ℕ
  | .createAccount cid _ _ _ => [cid]
  | .depositChecking cid _ => [cid]
  | .writeCheck cid _ => [cid]
  | .transactSavings cid _ => [cid]
  | .sendPayment src dst _ => [src, dst]
  | .amalgamate src dst => [src, dst]

/-- The header `process_smallbank_playlist` builds for one payload
(lines 112-137 of the source): family `"smallbank"`/`"1.0"`, the
wall-clock nonce, `make_addresses` as both inputs and outputs, the
hex-encoded digest of the encoded payload bytes, and the signer's public key
as both signer and batcher key. -/
def buildTxnHeader (hashFn : List ℕ → List ℕ) (nonce pubKeyHex : String)
    (payloadBytes : List ℕ) (p : SBPayload) : TransactionHeaderM :=
  let addresses := make_addresses hashFn p
  { familyName := "smallbank"
    familyVersion := "1.0"
    nonce := nonce
    inputs := addresses
    outputs := addresses
    payloadSha512 := bytes_to_hex_str (hashFn payloadBytes)
    signerPubkey := pubKeyHex
    batcherPubkey := pubKeyHex }

/-! ## The workload generator -/

/-- Outcome of a generator step: a value, a library panic
(`gen_range` called with `low >= high`), or non-termination of the
rejection-sampling loop (modelled by fuel exhaustion). -/
inductive StepResult (α : Type) where
  | ok (a : α)
  | panic
  | diverge
  deriving DecidableEq, Repr

def StepResult.map {α β : Type} (f : α → β) : StepResult α → StepResult β
  | .ok a => .ok (f a)
  | .panic => .panic
  | .diverge => .diverge

/-- `rng.gen_range(low, high)`: asserts `low < high` (else the process
aborts), and draws a value in `[low, high)`.  The draw consumes one value of
the abstract stream `s` at position `cursor`; which value in the range comes
out is abstracted as `low + s cursor % (high - low)`, so quantifying over
streams covers every possible sequence of draws. -/
def genRange (s : ℕ → ℕ) (cursor low high : ℕ) : Option (ℕ × ℕ) :=
  if low < high then some (low + s cursor % (high - low), cursor + 1) else none

/-- `next_non_matching_in_range`: starting from `selected = exclude`, redraw
`gen_range(0, max)` while the draw equals `exclude`.  `fuel` bounds the
number of iterations; running out models an infinite loop. -/
def next_non_matching_in_range (s : ℕ → ℕ) (max exclude : ℕ) :
    ℕ → ℕ → StepResult (ℕ × ℕ)
  | _, 0 => .diverge
  | cursor, fuel + 1 =>
    match genRange s cursor 0 max with
    | none => .panic
    | some (v, c') =>
      if v = exclude then next_non_matching_in_range s max exclude c' fuel
      else .ok (v, c')

def optStep {α : Type} : Option α → StepResult α
  | some a => .ok a
  | none => .panic

/-- `make_smallbank_deposit_checking_txn`: draw `customer_id` in
`[0, num_accounts as u32)` then `amount` in `[10, 200)`. -/
def make_smallbank_deposit_checking_txn (s : ℕ → ℕ) (cursor num_accounts : ℕ) :
    Option (SBPayload × ℕ) :=
  match genRange s cursor 0 (num_accounts % u32Size) with
  | none => none
  | some (cid, c1) =>
    match genRange s c1 10 200 with
    | none => none
    | some (amt, c2) => some (.depositChecking cid amt, c2)

/-- `make_smallbank_write_check_txn`. -/
def make_smallbank_write_check_txn (s : ℕ → ℕ) (cursor num_accounts : ℕ) :
    Option (SBPayload × ℕ) :=
  match genRange s cursor 0 (num_accounts % u32Size) with
  | none => none
  | some (cid, c1) =>
    match genRange s c1 10 200 with
    | none => none
    | some (amt, c2) => some (.writeCheck cid amt, c2)

/-- `make_smallbank_transact_savings_txn`: the amount is drawn as an `i32`
in `[10, 200)` (always nonnegative as generated). -/
def make_smallbank_transact_savings_txn (s : ℕ → ℕ) (cursor num_accounts : ℕ) :
    Option (SBPayload × ℕ) :=
  match genRange s cursor 0 (num_accounts % u32Size) with
  | none => none
  | some (cid, c1) =>
    match genRange s c1 10 200 with
    | none => none
    | some (amt, c2) => some (.transactSavings cid (amt : ℤ), c2)

/-- `make_smallbank_send_payment_txn`: source id, then the rejection loop for
a distinct destination id, then the amount. -/
def make_smallbank_send_payment_txn (s : ℕ → ℕ) (cursor num_accounts loopFuel : ℕ) :
    StepResult (SBPayload × ℕ) :=
  match genRange s cursor 0 (num_accounts % u32Size) with
  | none => .panic
  | some (src, c1) =>
    match next_non_matching_in_range s (num_accounts % u32Size) src c1 loopFuel with
    | .panic => .panic
    | .diverge => .diverge
    | .ok (dst, c2) =>
      match genRange s c2 10 200 with
      | none => .panic
      | some (amt, c3) => .ok (.sendPayment src dst amt, c3)

/-- `make_smallbank_amalgamate_txn`: like send-payment, without an amount. -/
def make_smallbank_amalgamate_txn (s : ℕ → ℕ) (cursor num_accounts loopFuel : ℕ) :
    StepResult (SBPayload × ℕ) :=
  match genRange s cursor 0 (num_accounts % u32Size) with
  | none => .panic
  | some (src, c1) =>
    match next_non_matching_in_range s (num_accounts % u32Size) src c1 loopFuel with
    | .panic => .panic
    | .diverge => .diverge
    | .ok (dst, c2) => .ok (.amalgamate src dst, c2)

/-- The `match payload_type` dispatch of phase 2, keyed by the raw
`gen_range(2, 7)` draw `t`; the final arm mirrors the source's unreachable
`panic!("Should not have generated outside of [2, 7)")`. -/
def phase2payload (s : ℕ → ℕ) (loopFuel num_accounts t cursor : ℕ) :
    StepResult (SBPayload × ℕ) :=
  if t = 2 then optStep (make_smallbank_deposit_checking_txn s cursor num_accounts)
  else if t = 3 then optStep (make_smallbank_write_check_txn s cursor num_accounts)
  else if t = 4 then optStep (make_smallbank_transact_savings_txn s cursor num_accounts)
  else if t = 5 then make_smallbank_send_payment_txn s cursor num_accounts loopFuel
  else if t = 6 then make_smallbank_amalgamate_txn s cursor num_accounts loopFuel
  else .panic

/-- The fields of `SmallbankGeneratingIter`, plus the rng cursor. -/
structure GenState where
  numAccounts : ℕ
  currentAccount : ℕ
  numTransactions : ℕ
  currentTransaction : ℕ
  cursor : ℕ
  deriving DecidableEq, Repr

/-- `format!("customer_{:06}", n)`: the decimal representation zero-padded
on the left to at least six digits. -/
def customerName (n : ℕ) : String :=
  let digits := Nat.repr n
  "customer_" ++
    (if digits.length < 6 then
       String.mk (List.replicate (6 - digits.length) '0') ++ digits
     else digits)

/-- One call of `SmallbankGeneratingIter::next`.  Phase 1 emits a
create-account record (`current_account as u32` truncates the id); phase 2
draws the variant with `gen_range(2, 7)` and dispatches; otherwise the
iterator is exhausted (`ok none`). -/
def iterNext (s : ℕ → ℕ) (loopFuel : ℕ) (st : GenState) :
    StepResult (Option (SBPayload × GenState)) :=
  if st.currentAccount < st.numAccounts then
    .ok (some (.createAccount (st.currentAccount % u32Size)
                 (customerName st.currentAccount) 1000000 1000000,
               { st with currentAccount := st.currentAccount + 1 }))
  else if st.currentTransaction < st.numTransactions then
    match genRange s st.cursor 2 7 with
    | none => .panic
    | some (t, c1) =>
      match phase2payload s loopFuel st.numAccounts t c1 with
      | .panic => .panic
      | .diverge => .diverge
      | .ok (p, c2) =>
        .ok (some (p, { st with currentTransaction := st.currentTransaction + 1,
                                cursor := c2 }))
  else
    .ok none

/-- Drain the iterator, collecting the yielded records (the `collect()` in
`generate_smallbank_playlist`).  `steps` bounds the number of yields; with
`steps = numAccounts + numTransactions` it is never the binding constraint. -/
def runIter (s : ℕ → ℕ) (loopFuel : ℕ) : ℕ → GenState → StepResult (List SBPayload)
  | 0, st =>
    match iterNext s loopFuel st with
    | .ok none => .ok []
    | .ok (some _) => .diverge
    | .panic => .panic
    | .diverge => .diverge
  | steps + 1, st =>
    match iterNext s loopFuel st with
    | .ok none => .ok []
    | .ok (some (p, st')) =>
      match runIter s loopFuel steps st' with
      | .ok rest => .ok (p :: rest)
      | .panic => .panic
      | .diverge => .diverge
    | .panic => .panic
    | .diverge => .diverge

/-- `create_smallbank_playlist` from a given random stream, run to
exhaustion. -/
def create_smallbank_playlist (s : ℕ → ℕ) (loopFuel num_accounts num_transactions : ℕ) :
    StepResult (List SBPayload) :=
  runIter s loopFuel (num_accounts + num_transactions)
    { numAccounts := num_accounts, currentAccount := 0,
      numTransactions := num_transactions, currentTransaction := 0, cursor := 0 }

/-- The YAML document `generate_smallbank_playlist` hands to the (external,
deterministic) emitter: the array of the per-record maps. -/
def generate_smallbank_playlist_yaml (s : ℕ → ℕ)
    (loopFuel num_accounts num_transactions : ℕ) : StepResult Yaml :=
  StepResult.map (fun l => Yaml.array (l.map payloadToYaml))
    (create_smallbank_playlist s loopFuel num_accounts num_transactions)

/-- The seed dispatch of `create_smallbank_playlist`: `Some(seed)` selects
`SeedableRng::from_seed(&[seed as usize])` (modelled by `seedToStream`, a
fixed function of the seed supplied by the external `rand` crate), `None`
selects `StdRng::new()` (OS entropy, modelled by `entropy`). -/
def streamForSeed (seedToStream : ℤ → ℕ → ℕ) (entropy : ℕ → ℕ) : Option ℤ → (ℕ → ℕ)
  | some sd => seedToStream sd
  | none => entropy

/-- The record sequence produced for a given `(num_accounts,
num_transactions, seed)` configuration. -/
def create_smallbank_playlist_seeded (seedToStream : ℤ → ℕ → ℕ) (entropy : ℕ → ℕ)
    (loopFuel num_accounts num_transactions : ℕ) (seed : Option ℤ) :
    StepResult (List SBPayload) :=
  create_smallbank_playlist (streamForSeed seedToStream entropy seed)
    loopFuel num_accounts num_transactions

/-- The YAML document produced for a given configuration. -/
def generate_smallbank_playlist_seeded (seedToStream : ℤ → ℕ → ℕ) (entropy : ℕ → ℕ)
    (loopFuel num_accounts num_transactions : ℕ) (seed : Option ℤ) :
    StepResult Yaml :=
  generate_smallbank_playlist_yaml (streamForSeed seedToStream entropy seed)
    loopFuel num_accounts num_transactions

/-- `source_customer_id != dest_customer_id` for the two-party variants
(trivially true for the others). -/
def distinctOk : SBPayload → Bool
  | .sendPayment src dst _ => src != dst
  | .amalgamate src dst => src != dst
  | _ => true

/-- The rejection loop produced a value that is distinct from `exclude` and
in range. -/
def nnmOkValid (r : StepResult (ℕ × ℕ)) (exclude max : ℕ) : Prop :=
  match r with
  | .ok (v, _) => v ≠ exclude ∧ v < max
  | _ => False

/-- The rejection loop never returns, whatever the iteration bound. -/
def nnmDiverges (s : ℕ → ℕ) (max exclude cursor : ℕ) : Prop :=
  ∀ fuel, next_non_matching_in_range s max exclude cursor fuel = .diverge

/-! # Theorems -/

/-! ## C10: the playlist-reading path aborts on non-array documents -/

/-- C10: reading a playlist is not total over well-formed YAML inputs.  When
the scanner yields no document at all, or a first document that is not an
array, `read_smallbank_playlist` aborts (models the `remove(0)` /
`as_vec().cloned().unwrap()` panics in `load_yaml_array`) instead of
returning through the error branch of its declared `Result` type. -/
theorem C10_theorem :
    load_yaml_array [Yaml.string "not_an_array"] = .error .unwrapNone ∧
    load_yaml_array [] = .error .removeOutOfBounds ∧
    read_smallbank_playlist (.ok [Yaml.string "not_an_array"]) =
      .panicked .unwrapNone ∧
    read_smallbank_playlist (.ok []) = .panicked .removeOutOfBounds :=
  ⟨rfl, rfl, rfl, rfl⟩

/-! ## C8: determinism under an explicit seed -/

/-- C8: two generation runs with the same `(num_accounts, num_transactions,
Some(seed))` configuration produce the same record sequence and the same
YAML document, whatever entropy source each run would have used for the
`None` branch: with an explicit seed the output depends only on the
seed-derived stream. -/
theorem C8_theorem (seedToStream : ℤ → ℕ → ℕ) (entropy1 entropy2 : ℕ → ℕ)
    (loopFuel num_accounts num_transactions : ℕ) (seed : ℤ) :
    create_smallbank_playlist_seeded seedToStream entropy1 loopFuel
        num_accounts num_transactions (some seed) =
      create_smallbank_playlist_seeded seedToStream entropy2 loopFuel
        num_accounts num_transactions (some seed) ∧
    generate_smallbank_playlist_seeded seedToStream entropy1 loopFuel
        num_accounts num_transactions (some seed) =
      generate_smallbank_playlist_seeded seedToStream entropy2 loopFuel
        num_accounts num_transactions (some seed) :=
  ⟨rfl, rfl⟩

/-! ## C9: header inputs and outputs -/

/-- C9: for every record the signing path builds a header whose inputs list
equals its outputs list, and that list is exactly the address deriver mapped
over the customer ids referenced by the variant (one id for the single-party
variants, source then destination for SendPayment/Amalgamate). -/
theorem C9_theorem (hashFn : List ℕ → List ℕ) (nonce pubKeyHex : String)
    (payloadBytes : List ℕ) (p : SBPayload) :
    (buildTxnHeader hashFn nonce pubKeyHex payloadBytes p).inputs =
      (buildTxnHeader hashFn nonce pubKeyHex payloadBytes p).outputs ∧
    (buildTxnHeader hashFn nonce pubKeyHex payloadBytes p).inputs =
      (specReferencedIds p).map (customer_id_address hashFn) := by
  refine ⟨rfl, ?_⟩
  cases p <;> rfl

/-! ## C5: the address deriver -/

theorem hexChars_flatten_length (bs : List ℕ) :
    ((bs.map byteHexChars).flatten).length = 2 * bs.length := by
  induction bs with
  | nil => rfl
  | cons b t ih =>
    have hb : (byteHexChars b).length = 2 := rfl
    simp only [List.map_cons, List.flatten_cons, List.length_append, hb, ih, List.length_cons]
    omega

theorem bytes_to_hex_str_length (bs : List ℕ) :
    (bytes_to_hex_str bs).length = 2 * bs.length := by
  show ((bs.map byteHexChars).flatten).length = 2 * bs.length
  exact hexChars_flatten_length bs

theorem digitChar_lower_hex : ∀ x : ℕ, x < 16 → isLowerHexChar (Nat.digitChar x) = true := by
  decide

theorem byteHexChars_lower_hex {b : ℕ} (hb : b < 256) :
    ∀ c ∈ byteHexChars b, isLowerHexChar c = true := by
  intro c hc
  simp only [byteHexChars, List.mem_cons, List.not_mem_nil, or_false] at hc
  rcases hc with rfl | rfl
  · exact digitChar_lower_hex _ (by omega)
  · exact digitChar_lower_hex _ (Nat.mod_lt _ (by omega))

theorem bytes_to_hex_str_lower_hex {bs : List ℕ} (hb : ∀ b ∈ bs, b < 256) :
    ∀ c ∈ (bytes_to_hex_str bs).toList, isLowerHexChar c = true := by
  intro c hc
  have hc' : c ∈ (bs.map byteHexChars).flatten := hc
  rw [List.mem_flatten] at hc'
  obtain ⟨cs, hcs, hmem⟩ := hc'
  rw [List.mem_map] at hcs
  obtain ⟨b, hbmem, rfl⟩ := hcs
  exact byteHexChars_lower_hex (hb b hbmem) c hmem

/-- C5: `customer_id_address` is a total function of the customer id; given
that the external 512-bit hash returns 64 bytes, the result has length 38,
consists solely of lowercase hex characters, and is the fixed prefix
`"332514"` followed by the first 32 characters of the hex-encoded digest of
the id's decimal string. -/
theorem C5_theorem (hashFn : List ℕ → List ℕ) (customer_id : ℕ)
    (hlen : (hashFn (strBytes (Nat.repr customer_id))).length = 64)
    (hbyte : ∀ b ∈ hashFn (strBytes (Nat.repr customer_id)), b < 256) :
    (customer_id_address hashFn customer_id).length = 38 ∧
    (customer_id_address hashFn customer_id).toList.all isLowerHexChar = true ∧
    customer_id_address hashFn customer_id =
      "332514" ++ String.mk
        ((bytes_to_hex_str (hashFn (strBytes (Nat.repr customer_id)))).toList.take 32) := by
  refine ⟨?_, ?_, rfl⟩
  · show ("332514" ++ String.mk
        ((bytes_to_hex_str (hashFn (strBytes (Nat.repr customer_id)))).toList.take 32)).length = 38
    rw [String.length_append]
    have h1 : (String.mk
        ((bytes_to_hex_str (hashFn (strBytes (Nat.repr customer_id)))).toList.take 32)).length =
        ((bytes_to_hex_str (hashFn (strBytes (Nat.repr customer_id)))).toList.take 32).length := rfl
    have h2 : (bytes_to_hex_str (hashFn (strBytes (Nat.repr customer_id)))).toList.length = 128 := by
      show (bytes_to_hex_str (hashFn (strBytes (Nat.repr customer_id)))).length = 128
      rw [bytes_to_hex_str_length, hlen]
    rw [h1, List.length_take, h2]
    decide
  · show (("332514" ++ String.mk
        ((bytes_to_hex_str (hashFn (strBytes (Nat.repr customer_id)))).toList.take 32)).toList.all
        isLowerHexChar) = true
    have happ : ("332514" ++ String.mk
        ((bytes_to_hex_str (hashFn (strBytes (Nat.repr customer_id)))).toList.take 32)).toList =
        "332514".toList ++
          (bytes_to_hex_str (hashFn (strBytes (Nat.repr customer_id)))).toList.take 32 := by
      show ("332514".data ++ _) = _
      rfl
    rw [happ, List.all_append, Bool.and_eq_true]
    refine ⟨by decide, ?_⟩
    rw [List.all_eq_true]
    intro c hc
    exact bytes_to_hex_str_lower_hex hbyte c (List.mem_of_mem_take hc)

/-- C5 witness: at `customer_id = 7` with a concrete 64-byte digest. -/
theorem C5_witness :
    (customer_id_address (fun _ => List.replicate 64 7) 7).length = 38 ∧
    (customer_id_address (fun _ => List.replicate 64 7) 7).toList.all isLowerHexChar = true ∧
    customer_id_address (fun _ => List.replicate 64 7) 7 =
      "332514" ++ String.mk
        ((bytes_to_hex_str ((fun _ : List ℕ => List.replicate 64 7)
            (strBytes (Nat.repr 7)))).toList.take 32) :=
  C5_theorem (fun _ => List.replicate 64 7) 7 (by decide) (by decide)

/-! ## C2: structured-text round trip -/

theorem toU32_natCast {n : ℕ} (h : n < u32Size) : toU32 (n : ℤ) = n := by
  unfold toU32
  unfold u32Size at h
  omega

theorem toI32_id {a : ℤ} (h1 : -(2147483648 : ℤ) ≤ a) (h2 : a < 2147483648) :
    toI32 a = a := by
  unfold toI32
  split <;> omega

theorem yamlToPayload_payloadToYaml (p : SBPayload) (hv : validPayload p) :
    yamlToPayload (payloadToYaml p) = .ok p := by
  cases p with
  | createAccount cid nm sb cb =>
    simp only [validPayload] at hv
    obtain ⟨h1, h2, h3⟩ := hv
    have e : yamlToPayload (payloadToYaml (.createAccount cid nm sb cb)) =
        .ok (.createAccount (toU32 cid) nm (toU32 sb) (toU32 cb)) := rfl
    rw [e, toU32_natCast h1, toU32_natCast h2, toU32_natCast h3]
  | depositChecking cid a =>
    simp only [validPayload] at hv
    obtain ⟨h1, h2⟩ := hv
    have e : yamlToPayload (payloadToYaml (.depositChecking cid a)) =
        .ok (.depositChecking (toU32 cid) (toU32 a)) := rfl
    rw [e, toU32_natCast h1, toU32_natCast h2]
  | writeCheck cid a =>
    simp only [validPayload] at hv
    obtain ⟨h1, h2⟩ := hv
    have e : yamlToPayload (payloadToYaml (.writeCheck cid a)) =
        .ok (.writeCheck (toU32 cid) (toU32 a)) := rfl
    rw [e, toU32_natCast h1, toU32_natCast h2]
  | transactSavings cid a =>
    simp only [validPayload] at hv
    obtain ⟨h1, h2, h3⟩ := hv
    have e : yamlToPayload (payloadToYaml (.transactSavings cid a)) =
        .ok (.transactSavings (toU32 cid) (toI32 a)) := rfl
    rw [e, toU32_natCast h1, toI32_id h2 h3]
  | sendPayment src dst a =>
    simp only [validPayload] at hv
    obtain ⟨h1, h2, h3⟩ := hv
    have e : yamlToPayload (payloadToYaml (.sendPayment src dst a)) =
        .ok (.sendPayment (toU32 src) (toU32 dst) (toU32 a)) := rfl
    rw [e, toU32_natCast h1, toU32_natCast h2, toU32_natCast h3]
  | amalgamate src dst =>
    simp only [validPayload] at hv
    obtain ⟨h1, h2⟩ := hv
    have e : yamlToPayload (payloadToYaml (.amalgamate src dst)) =
        .ok (.amalgamate (toU32 src) (toU32 dst)) := rfl
    rw [e, toU32_natCast h1, toU32_natCast h2]

/-- C2: decoding the structured-text encoding of any valid record sequence
yields the sequence back. -/
theorem C2_theorem (ps : List SBPayload) (hv : ∀ p ∈ ps, validPayload p) :
    yamlsToPayloads (ps.map payloadToYaml) = .ok ps := by
  induction ps with
  | nil => rfl
  | cons p t ih =>
    simp only [List.map_cons, yamlsToPayloads]
    rw [yamlToPayload_payloadToYaml p (hv p (List.mem_cons_self p t)),
      ih (fun q hq => hv q (List.mem_cons_of_mem p hq))]

/-- C2 witness: the spec's concrete scenario, a single deposit-checking
record with customer id 5 and amount 50. -/
theorem C2_witness :
    yamlsToPayloads ([SBPayload.depositChecking 5 50].map payloadToYaml) =
      .ok [SBPayload.depositChecking 5 50] :=
  C2_theorem [SBPayload.depositChecking 5 50] (by
    intro p hp
    rw [List.mem_singleton] at hp
    subst hp
    exact ⟨by norm_num [u32Size], by norm_num [u32Size]⟩)

/-! ## C3: decode failure behaviour -/

/-- C3 counterexample: decoding the document `[{transaction_type:
"unknown_op"}]` does not return an error value through the declared `Result`
type; the conversion aborts the process (`panic!("unknown transaction_type:
unknown_op")`).  The code's `PlaylistError` enum has no
`UnknownTransactionType` (nor `MissingTransactionType`, `MissingField`,
`TypeMismatch`) variant at all. -/
theorem C3_counterexample :
    read_smallbank_playlist
        (.ok [Yaml.array [Yaml.hash [(Yaml.string "transaction_type",
            Yaml.string "unknown_op")]]]) =
      .panicked (.unknownTransactionType "unknown_op") := rfl

/-- C3 amended: for each malformed element the conversion panics (process
abort) identifying the problem, rather than returning an error value: an
unrecognized `transaction_type` name aborts with that name; an absent
`transaction_type` key aborts via the map-index panic; a `transaction_type`
that is not a string aborts with "No transaction_type specified"; an absent
required field of the resolved variant aborts via the map-index panic naming
the key; a required field of the wrong type aborts via `unwrap` on `None`
(shown for the deposit-checking variant's `customer_id`). -/
theorem C3_theorem (h : List (Yaml × Yaml)) (name : String) :
    (hashGet h "transaction_type" = none →
       yamlToPayload (Yaml.hash h) = .error (.keyNotFound "transaction_type")) ∧
    (∀ v, hashGet h "transaction_type" = some v → v.asStr = none →
       yamlToPayload (Yaml.hash h) = .error .noTransactionType) ∧
    (hashGet h "transaction_type" = some (Yaml.string name) →
       name ≠ "create_account" → name ≠ "deposit_checking" → name ≠ "write_check" →
       name ≠ "transact_savings" → name ≠ "send_payment" → name ≠ "amalgamate" →
       yamlToPayload (Yaml.hash h) = .error (.unknownTransactionType name)) ∧
    (hashGet h "transaction_type" = some (Yaml.string "deposit_checking") →
       hashGet h "customer_id" = none →
       yamlToPayload (Yaml.hash h) = .error (.keyNotFound "customer_id")) ∧
    (∀ v, hashGet h "transaction_type" = some (Yaml.string "deposit_checking") →
       hashGet h "customer_id" = some v → v.asI64 = none →
       yamlToPayload (Yaml.hash h) = .error .unwrapNone) := by
  refine ⟨?_, ?_, ?_, ?_, ?_⟩
  · intro hnone
    simp only [yamlToPayload, Yaml.asHash, hnone]
  · intro v hsome hstr
    simp only [yamlToPayload, Yaml.asHash, hsome, hstr]
  · intro hsome h1 h2 h3 h4 h5 h6
    simp only [yamlToPayload, Yaml.asHash, hsome, Yaml.asStr]
    rw [dispatchType, if_neg h1, if_neg h2, if_neg h3, if_neg h4, if_neg h5, if_neg h6]
  · intro hsome hcid
    simp only [yamlToPayload, Yaml.asHash, hsome, Yaml.asStr]
    rw [dispatchType, if_neg (by decide), if_pos rfl]
    simp only [getU32, hcid]
    rfl
  · intro v hsome hcid hi64
    simp only [yamlToPayload, Yaml.asHash, hsome, Yaml.asStr]
    rw [dispatchType, if_neg (by decide), if_pos rfl]
    simp only [getU32, hcid, hi64]
    rfl

/-- C3 witness: each abort case exercised on a concrete document element. -/
theorem C3_witness :
    yamlToPayload (Yaml.hash []) = .error (.keyNotFound "transaction_type") ∧
    yamlToPayload (Yaml.hash [(Yaml.string "transaction_type", Yaml.integer 1)]) =
      .error .noTransactionType ∧
    yamlToPayload (Yaml.hash [(Yaml.string "transaction_type", Yaml.string "unknown_op")]) =
      .error (.unknownTransactionType "unknown_op") ∧
    yamlToPayload (Yaml.hash [(Yaml.string "transaction_type",
        Yaml.string "deposit_checking")]) = .error (.keyNotFound "customer_id") ∧
    yamlToPayload (Yaml.hash [(Yaml.string "transaction_type",
        Yaml.string "deposit_checking"),
        (Yaml.string "customer_id", Yaml.string "five")]) = .error .unwrapNone :=
  ⟨(C3_theorem [] "x").1 rfl,
   (C3_theorem [(Yaml.string "transaction_type", Yaml.integer 1)] "x").2.1
     (Yaml.integer 1) rfl rfl,
   (C3_theorem [(Yaml.string "transaction_type", Yaml.string "unknown_op")]
       "unknown_op").2.2.1 rfl (by decide) (by decide) (by decide) (by decide)
     (by decide) (by decide),
   (C3_theorem [(Yaml.string "transaction_type", Yaml.string "deposit_checking")]
       "x").2.2.2.1 rfl rfl,
   (C3_theorem [(Yaml.string "transaction_type", Yaml.string "deposit_checking"),
       (Yaml.string "customer_id", Yaml.string "five")] "x").2.2.2.2
     (Yaml.string "five") rfl rfl rfl⟩

/-! ## Generator helper lemmas -/

theorem genRange_some {s : ℕ → ℕ} {cursor low high v c' : ℕ}
    (h : genRange s cursor low high = some (v, c')) :
    low < high ∧ v = low + s cursor % (high - low) ∧ c' = cursor + 1 := by
  unfold genRange at h
  split at h
  · simp only [Option.some.injEq, Prod.mk.injEq] at h
    exact ⟨by assumption, h.1.symm, h.2.symm⟩
  · simp at h

theorem genRange_some_lt {s : ℕ → ℕ} {cursor low high v c' : ℕ}
    (h : genRange s cursor low high = some (v, c')) : low ≤ v ∧ v < high := by
  obtain ⟨hlh, hv, _⟩ := genRange_some h
  have := Nat.mod_lt (s cursor) (show 0 < high - low by omega)
  omega

theorem genRange_pos {s : ℕ → ℕ} {cursor low high : ℕ} (h : low < high) :
    genRange s cursor low high = some (low + s cursor % (high - low), cursor + 1) := by
  unfold genRange
  rw [if_pos h]

/-- One-step unfolding of the rejection loop. -/
theorem nnm_succ (s : ℕ → ℕ) (max exclude cursor fuel : ℕ) :
    next_non_matching_in_range s max exclude cursor (fuel + 1) =
      match genRange s cursor 0 max with
      | none => .panic
      | some (v, c') =>
        if v = exclude then next_non_matching_in_range s max exclude c' fuel
        else .ok (v, c') := rfl

/-- Partial correctness of the rejection loop: any returned value differs
from `exclude` and lies below `max`. -/
theorem nnm_ok {s : ℕ → ℕ} {max exclude : ℕ} :
    ∀ {fuel cursor v c'},
      next_non_matching_in_range s max exclude cursor fuel = .ok (v, c') →
      v ≠ exclude ∧ v < max := by
  intro fuel
  induction fuel with
  | zero =>
    intro cursor v c' h
    simp [next_non_matching_in_range] at h
  | succ n ih =>
    intro cursor v c' h
    rw [nnm_succ] at h
    cases hg : genRange s cursor 0 max with
    | none =>
      simp only [hg] at h
      exact StepResult.noConfusion h
    | some pr =>
      obtain ⟨v', c''⟩ := pr
      simp only [hg] at h
      by_cases hv : v' = exclude
      · rw [if_pos hv] at h
        exact ih h
      · rw [if_neg hv] at h
        simp only [StepResult.ok.injEq, Prod.mk.injEq] at h
        obtain ⟨hveq, hceq⟩ := h
        subst hveq
        exact ⟨hv, (genRange_some_lt hg).2⟩

/-- Termination of the rejection loop: if the stream's draw at offset `k`
differs from `exclude` modulo `max` (and `max ≥ 2` so the in-loop
`gen_range` cannot abort), fuel `k + 1` suffices and the returned value is
distinct and in range. -/
theorem nnm_terminates (s : ℕ → ℕ) (max exclude : ℕ) :
    ∀ k cursor, 2 ≤ max → s (cursor + k) % max ≠ exclude →
      nnmOkValid (next_non_matching_in_range s max exclude cursor (k + 1)) exclude max := by
  intro k
  induction k with
  | zero =>
    intro cursor hm hk
    rw [Nat.add_zero] at hk
    rw [nnm_succ]
    simp only [genRange_pos (show 0 < max by omega), Nat.sub_zero, Nat.zero_add]
    rw [if_neg hk]
    exact ⟨hk, Nat.mod_lt _ (by omega)⟩
  | succ n ih =>
    intro cursor hm hk
    rw [nnm_succ]
    simp only [genRange_pos (show 0 < max by omega), Nat.sub_zero, Nat.zero_add]
    by_cases he : s cursor % max = exclude
    · rw [if_pos he]
      exact ih (cursor + 1) hm
        (by rw [show cursor + 1 + n = cursor + (n + 1) by omega]; exact hk)
    · rw [if_neg he]
      exact ⟨he, Nat.mod_lt _ (by omega)⟩

/-- With `max = 1` every draw is `0`; excluding `0`, the loop never
terminates, whatever the stream and the iteration bound. -/
theorem nnm_max1_diverges (s : ℕ → ℕ) :
    ∀ fuel cursor, next_non_matching_in_range s 1 0 cursor fuel = .diverge := by
  intro fuel
  induction fuel with
  | zero => intro c; rfl
  | succ n ih =>
    intro c
    rw [nnm_succ]
    simp only [genRange_pos (show (0:ℕ) < 1 by omega), Nat.sub_zero, Nat.zero_add,
      Nat.mod_one]
    simp only [if_true]
    exact ih (c + 1)

/-! ## C7: rejection-loop termination and the num_accounts = 1 case -/

/-- C7 counterexample: with a single account (`max = 1`, excluded source id
`0`) the destination-selection loop runs forever — the code diverges
instead of failing with any `InvalidConfiguration` error (the code's
`PlaylistError` enum has no such variant). -/
theorem C7_counterexample : nnmDiverges (fun _ => 0) 1 0 0 :=
  fun fuel => nnm_max1_diverges (fun _ => 0) fuel 0

/-- C7 amended: destination-id selection terminates for `num_accounts ≥ 2`
whenever the random stream eventually yields a draw differing from the
excluded source id (an event of probability 1 for a real generator), and the
returned id is distinct and in range; but with `num_accounts = 1` the loop
diverges — it does not fail with `InvalidConfiguration`. -/
theorem C7_theorem :
    (∀ (s : ℕ → ℕ) (max exclude cursor k : ℕ), 2 ≤ max →
       s (cursor + k) % max ≠ exclude →
       nnmOkValid (next_non_matching_in_range s max exclude cursor (k + 1)) exclude max) ∧
    (∀ (s : ℕ → ℕ) (cursor : ℕ), nnmDiverges s 1 0 cursor) :=
  ⟨fun s max exclude cursor k hm hk => nnm_terminates s max exclude k cursor hm hk,
   fun s cursor fuel => nnm_max1_diverges s fuel cursor⟩

/-- C7 witness: a concrete terminating run at `max = 2` and a concrete
diverging run at `max = 1`. -/
theorem C7_witness :
    nnmOkValid (next_non_matching_in_range (fun _ => 1) 2 0 0 1) 0 2 ∧
    next_non_matching_in_range (fun _ => 0) 1 0 0 5 = .diverge :=
  ⟨C7_theorem.1 (fun _ => 1) 2 0 0 0 (by norm_num) (by norm_num),
   C7_theorem.2 (fun _ => 0) 0 5⟩

/-! ## Phase-2 payload lemmas -/

theorem optStep_ok {α : Type} {x : Option α} {a : α} (h : optStep x = .ok a) :
    x = some a := by
  cases x with
  | none => simp [optStep] at h
  | some b =>
    simp only [optStep, StepResult.ok.injEq] at h
    rw [h]

theorem make_deposit_distinct {s : ℕ → ℕ} {c na : ℕ} {p : SBPayload} {c' : ℕ}
    (h : make_smallbank_deposit_checking_txn s c na = some (p, c')) :
    distinctOk p = true := by
  unfold make_smallbank_deposit_checking_txn at h
  split at h
  · exact Option.noConfusion h
  · split at h
    · exact Option.noConfusion h
    · simp only [Option.some.injEq, Prod.mk.injEq] at h
      rw [← h.1]
      rfl

theorem make_write_check_distinct {s : ℕ → ℕ} {c na : ℕ} {p : SBPayload} {c' : ℕ}
    (h : make_smallbank_write_check_txn s c na = some (p, c')) :
    distinctOk p = true := by
  unfold make_smallbank_write_check_txn at h
  split at h
  · exact Option.noConfusion h
  · split at h
    · exact Option.noConfusion h
    · simp only [Option.some.injEq, Prod.mk.injEq] at h
      rw [← h.1]
      rfl

theorem make_transact_savings_distinct {s : ℕ → ℕ} {c na : ℕ} {p : SBPayload} {c' : ℕ}
    (h : make_smallbank_transact_savings_txn s c na = some (p, c')) :
    distinctOk p = true := by
  unfold make_smallbank_transact_savings_txn at h
  split at h
  · exact Option.noConfusion h
  · split at h
    · exact Option.noConfusion h
    · simp only [Option.some.injEq, Prod.mk.injEq] at h
      rw [← h.1]
      rfl

theorem make_send_payment_distinct {s : ℕ → ℕ} {c na f : ℕ} {p : SBPayload} {c' : ℕ}
    (h : make_smallbank_send_payment_txn s c na f = .ok (p, c')) :
    distinctOk p = true := by
  unfold make_smallbank_send_payment_txn at h
  split at h
  · exact StepResult.noConfusion h
  · rename_i src c1 hsrc
    split at h
    · exact StepResult.noConfusion h
    · exact StepResult.noConfusion h
    · rename_i dst c2 hdst
      split at h
      · exact StepResult.noConfusion h
      · simp only [StepResult.ok.injEq, Prod.mk.injEq] at h
        rw [← h.1]
        have hne := (nnm_ok hdst).1
        simp only [distinctOk, bne_iff_ne, ne_eq]
        exact fun hc => hne (hc.symm)

theorem make_amalgamate_distinct {s : ℕ → ℕ} {c na f : ℕ} {p : SBPayload} {c' : ℕ}
    (h : make_smallbank_amalgamate_txn s c na f = .ok (p, c')) :
    distinctOk p = true := by
  unfold make_smallbank_amalgamate_txn at h
  split at h
  · exact StepResult.noConfusion h
  · rename_i src c1 hsrc
    split at h
    · exact StepResult.noConfusion h
    · exact StepResult.noConfusion h
    · rename_i dst c2 hdst
      simp only [StepResult.ok.injEq, Prod.mk.injEq] at h
      rw [← h.1]
      have hne := (nnm_ok hdst).1
      simp only [distinctOk, bne_iff_ne, ne_eq]
      exact fun hc => hne (hc.symm)

theorem phase2payload_distinct {s : ℕ → ℕ} {f na t c : ℕ} {p : SBPayload} {c' : ℕ}
    (h : phase2payload s f na t c = .ok (p, c')) : distinctOk p = true := by
  unfold phase2payload at h
  split at h
  · exact make_deposit_distinct (optStep_ok h)
  · split at h
    · exact make_write_check_distinct (optStep_ok h)
    · split at h
      · exact make_transact_savings_distinct (optStep_ok h)
      · split at h
        · exact make_send_payment_distinct h
        · split at h
          · exact make_amalgamate_distinct h
          · exact StepResult.noConfusion h

/-! ## Iterator-step lemmas -/

theorem iterNext_phase1 {s : ℕ → ℕ} {f : ℕ} {st : GenState}
    (h : st.currentAccount < st.numAccounts) :
    iterNext s f st =
      .ok (some (.createAccount (st.currentAccount % u32Size)
          (customerName st.currentAccount) 1000000 1000000,
        { st with currentAccount := st.currentAccount + 1 })) := by
  unfold iterNext
  rw [if_pos h]

theorem iterNext_done {s : ℕ → ℕ} {f : ℕ} {st : GenState}
    (h1 : ¬st.currentAccount < st.numAccounts)
    (h2 : ¬st.currentTransaction < st.numTransactions) :
    iterNext s f st = .ok none := by
  unfold iterNext
  rw [if_neg h1, if_neg h2]

theorem iterNext_none_inv {s : ℕ → ℕ} {f : ℕ} {st : GenState}
    (h : iterNext s f st = .ok none) :
    st.numAccounts ≤ st.currentAccount ∧
      st.numTransactions ≤ st.currentTransaction := by
  unfold iterNext at h
  split at h
  · simp at h
  · rename_i h1
    split at h
    · rename_i h2
      split at h
      · exact StepResult.noConfusion h
      · split at h
        · exact StepResult.noConfusion h
        · exact StepResult.noConfusion h
        · simp at h
    · rename_i h2
      exact ⟨Nat.le_of_not_lt h1, Nat.le_of_not_lt h2⟩

theorem iterNext_some_inv {s : ℕ → ℕ} {f : ℕ} {st : GenState} {p : SBPayload}
    {st' : GenState} (h : iterNext s f st = .ok (some (p, st'))) :
    (st.currentAccount < st.numAccounts ∧
       p = .createAccount (st.currentAccount % u32Size)
             (customerName st.currentAccount) 1000000 1000000 ∧
       st' = { st with currentAccount := st.currentAccount + 1 }) ∨
    (st.numAccounts ≤ st.currentAccount ∧
       st.currentTransaction < st.numTransactions ∧
       distinctOk p = true ∧
       st'.numAccounts = st.numAccounts ∧
       st'.currentAccount = st.currentAccount ∧
       st'.numTransactions = st.numTransactions ∧
       st'.currentTransaction = st.currentTransaction + 1) := by
  unfold iterNext at h
  split at h
  · rename_i h1
    left
    simp only [StepResult.ok.injEq, Option.some.injEq, Prod.mk.injEq] at h
    exact ⟨h1, h.1.symm, h.2.symm⟩
  · rename_i h1
    split at h
    · rename_i h2
      split at h
      · exact StepResult.noConfusion h
      · rename_i t c1 hg
        split at h
        · exact StepResult.noConfusion h
        · exact StepResult.noConfusion h
        · rename_i q c2 hq
          right
          simp only [StepResult.ok.injEq, Option.some.injEq, Prod.mk.injEq] at h
          obtain ⟨hp, hst⟩ := h
          subst hp
          rw [← hst]
          exact ⟨Nat.le_of_not_lt h1, h2, phase2payload_distinct hq, rfl, rfl, rfl, rfl⟩
    · simp at h

/-! ## Iterator-draining lemmas -/

theorem runIter_done {s : ℕ → ℕ} {f : ℕ} {st : GenState} (n : ℕ)
    (hnext : iterNext s f st = .ok none) : runIter s f n st = .ok [] := by
  cases n <;> simp [runIter, hnext]

theorem runIter_iterPanic {s : ℕ → ℕ} {f : ℕ} {st : GenState} (n : ℕ)
    (hnext : iterNext s f st = .panic) : runIter s f n st = .panic := by
  cases n <;> simp [runIter, hnext]

theorem runIter_zero_some {s : ℕ → ℕ} {f : ℕ} {st : GenState} {p : SBPayload}
    {st' : GenState} (hnext : iterNext s f st = .ok (some (p, st'))) :
    runIter s f 0 st = .diverge := by
  simp [runIter, hnext]

theorem runIter_succ_ok {s : ℕ → ℕ} {f n : ℕ} {st st' : GenState} {p : SBPayload}
    {rest : List SBPayload} (hnext : iterNext s f st = .ok (some (p, st')))
    (hrec : runIter s f n st' = .ok rest) :
    runIter s f (n + 1) st = .ok (p :: rest) := by
  simp [runIter, hnext, hrec]

theorem runIter_succ_panic {s : ℕ → ℕ} {f n : ℕ} {st st' : GenState} {p : SBPayload}
    (hnext : iterNext s f st = .ok (some (p, st')))
    (hrec : runIter s f n st' = .panic) :
    runIter s f (n + 1) st = .panic := by
  simp [runIter, hnext, hrec]

theorem runIter_succ_diverge {s : ℕ → ℕ} {f n : ℕ} {st st' : GenState} {p : SBPayload}
    (hnext : iterNext s f st = .ok (some (p, st')))
    (hrec : runIter s f n st' = .diverge) :
    runIter s f (n + 1) st = .diverge := by
  simp [runIter, hnext, hrec]

/-- `iterNext` diverging makes the drain diverge. -/
theorem runIter_iterDiverge {s : ℕ → ℕ} {f : ℕ} {st : GenState} (n : ℕ)
    (hnext : iterNext s f st = .diverge) : runIter s f n st = .diverge := by
  cases n <;> simp [runIter, hnext]

/-- Every successful drain has exactly the number of records the iterator
still owes: remaining accounts plus remaining operation transactions. -/
theorem runIter_length {s : ℕ → ℕ} {f : ℕ} :
    ∀ (steps : ℕ) (st : GenState) (l : List SBPayload),
      runIter s f steps st = .ok l →
      l.length = (st.numAccounts - st.currentAccount) +
        (st.numTransactions - st.currentTransaction) := by
  intro steps
  induction steps with
  | zero =>
    intro st l h
    cases hnext : iterNext s f st with
    | panic =>
      rw [runIter_iterPanic 0 hnext] at h
      exact StepResult.noConfusion h
    | diverge =>
      rw [runIter_iterDiverge 0 hnext] at h
      exact StepResult.noConfusion h
    | ok oa =>
      cases oa with
      | none =>
        rw [runIter_done 0 hnext] at h
        obtain ⟨h1, h2⟩ := iterNext_none_inv hnext
        simp only [StepResult.ok.injEq] at h
        rw [← h]
        simp only [List.length_nil]
        omega
      | some pr =>
        obtain ⟨p, st'⟩ := pr
        rw [runIter_zero_some hnext] at h
        exact StepResult.noConfusion h
  | succ n ih =>
    intro st l h
    cases hnext : iterNext s f st with
    | panic =>
      rw [runIter_iterPanic (n + 1) hnext] at h
      exact StepResult.noConfusion h
    | diverge =>
      rw [runIter_iterDiverge (n + 1) hnext] at h
      exact StepResult.noConfusion h
    | ok oa =>
      cases oa with
      | none =>
        rw [runIter_done (n + 1) hnext] at h
        obtain ⟨h1, h2⟩ := iterNext_none_inv hnext
        simp only [StepResult.ok.injEq] at h
        rw [← h]
        simp only [List.length_nil]
        omega
      | some pr =>
        obtain ⟨p, st'⟩ := pr
        cases hrec : runIter s f n st' with
        | ok rest =>
          rw [runIter_succ_ok hnext hrec] at h
          simp only [StepResult.ok.injEq] at h
          rw [← h]
          have hlen := ih st' rest hrec
          rcases iterNext_some_inv hnext with ⟨hlt, hp, hst⟩ | ⟨hle, hlt, _, e1, e2, e3, e4⟩
          · subst hst
            simp only [List.length_cons, hlen]
            omega
          · simp only [List.length_cons, hlen, e1, e2, e3, e4]
            omega
        | panic =>
          rw [runIter_succ_panic hnext hrec] at h
          exact StepResult.noConfusion h
        | diverge =>
          rw [runIter_succ_diverge hnext hrec] at h
          exact StepResult.noConfusion h

/-- Every record in a successful drain satisfies the source/destination
distinctness predicate. -/
theorem runIter_distinct {s : ℕ → ℕ} {f : ℕ} :
    ∀ (steps : ℕ) (st : GenState) (l : List SBPayload),
      runIter s f steps st = .ok l → l.all distinctOk = true := by
  intro steps
  induction steps with
  | zero =>
    intro st l h
    cases hnext : iterNext s f st with
    | panic =>
      rw [runIter_iterPanic 0 hnext] at h
      exact StepResult.noConfusion h
    | diverge =>
      rw [runIter_iterDiverge 0 hnext] at h
      exact StepResult.noConfusion h
    | ok oa =>
      cases oa with
      | none =>
        rw [runIter_done 0 hnext] at h
        simp only [StepResult.ok.injEq] at h
        rw [← h]
        rfl
      | some pr =>
        obtain ⟨p, st'⟩ := pr
        rw [runIter_zero_some hnext] at h
        exact StepResult.noConfusion h
  | succ n ih =>
    intro st l h
    cases hnext : iterNext s f st with
    | panic =>
      rw [runIter_iterPanic (n + 1) hnext] at h
      exact StepResult.noConfusion h
    | diverge =>
      rw [runIter_iterDiverge (n + 1) hnext] at h
      exact StepResult.noConfusion h
    | ok oa =>
      cases oa with
      | none =>
        rw [runIter_done (n + 1) hnext] at h
        simp only [StepResult.ok.injEq] at h
        rw [← h]
        rfl
      | some pr =>
        obtain ⟨p, st'⟩ := pr
        cases hrec : runIter s f n st' with
        | ok rest =>
          rw [runIter_succ_ok hnext hrec] at h
          simp only [StepResult.ok.injEq] at h
          rw [← h]
          have hrest := ih st' rest hrec
          have hhead : distinctOk p = true := by
            rcases iterNext_some_inv hnext with ⟨_, hp, _⟩ | ⟨_, _, hd, _⟩
            · rw [hp]; rfl
            · exact hd
          simp [List.all_cons, hhead, hrest]
        | panic =>
          rw [runIter_succ_panic hnext hrec] at h
          exact StepResult.noConfusion h
        | diverge =>
          rw [runIter_succ_diverge hnext hrec] at h
          exact StepResult.noConfusion h

/-- Every successful drain starts with the still-owed block of
create-account records, in increasing id order. -/
theorem runIter_phase1 {s : ℕ → ℕ} {f : ℕ} :
    ∀ (steps na ca nt ct cur : ℕ) (l : List SBPayload),
      runIter s f steps ⟨na, ca, nt, ct, cur⟩ = .ok l →
      ∃ rest, l = (List.range' ca (na - ca)).map
          (fun i => SBPayload.createAccount (i % u32Size) (customerName i)
            1000000 1000000) ++ rest := by
  intro steps
  induction steps with
  | zero =>
    intro na ca nt ct cur l h
    by_cases hca : ca < na
    · rw [runIter_zero_some (@iterNext_phase1 s f ⟨na, ca, nt, ct, cur⟩ hca)] at h
      exact StepResult.noConfusion h
    · refine ⟨l, ?_⟩
      rw [Nat.sub_eq_zero_of_le (Nat.le_of_not_lt hca)]
      simp [List.range']
  | succ n ih =>
    intro na ca nt ct cur l h
    by_cases hca : ca < na
    · have hnext := @iterNext_phase1 s f ⟨na, ca, nt, ct, cur⟩ hca
      cases hrec : runIter s f n ⟨na, ca + 1, nt, ct, cur⟩ with
      | ok rest =>
        rw [runIter_succ_ok hnext hrec] at h
        simp only [StepResult.ok.injEq] at h
        obtain ⟨rest', hrest'⟩ := ih na (ca + 1) nt ct cur rest hrec
        refine ⟨rest', ?_⟩
        rw [← h, hrest']
        rw [show na - ca = (na - (ca + 1)) + 1 by omega, List.range'_succ,
          List.map_cons, List.cons_append]
      | panic =>
        rw [runIter_succ_panic hnext hrec] at h
        exact StepResult.noConfusion h
      | diverge =>
        rw [runIter_succ_diverge hnext hrec] at h
        exact StepResult.noConfusion h
    · refine ⟨l, ?_⟩
      rw [Nat.sub_eq_zero_of_le (Nat.le_of_not_lt hca)]
      simp [List.range']

/-! ## C1: shape of the generated playlist -/

/-- C1 counterexample: the claim quantifies over every `num_accounts`; at
`num_accounts = 0, num_transactions = 2` generation does not yield the
claimed `0 + 2` records — the first phase-2 step calls `gen_range(0, 0)`,
which aborts the process, whatever the random draws. -/
theorem C1_counterexample :
    create_smallbank_playlist (fun _ => 1) 3 0 2 = .panic := rfl

/-- C1 amended: whenever generation runs to completion (and `num_accounts`
does not exceed `2^32`, so the `as u32` id cast is lossless), it yields
exactly `num_accounts + num_transactions` records, and the first
`num_accounts` of them are CreateAccount records with customer ids
`0, 1, ..., num_accounts - 1` in order, names `"customer_"` plus the id
zero-padded to six digits, and both balances 1,000,000. -/
theorem C1_theorem (s : ℕ → ℕ) (loopFuel num_accounts num_transactions : ℕ)
    (l : List SBPayload) (hbound : num_accounts ≤ u32Size)
    (h : create_smallbank_playlist s loopFuel num_accounts num_transactions = .ok l) :
    l.length = num_accounts + num_transactions ∧
    l.take num_accounts = (List.range num_accounts).map
      (fun i => SBPayload.createAccount i (customerName i) 1000000 1000000) := by
  unfold create_smallbank_playlist at h
  constructor
  · have hlen := runIter_length _ _ _ h
    simpa using hlen
  · obtain ⟨rest, hrest⟩ := runIter_phase1 _ num_accounts 0 num_transactions 0 0 l h
    have hmap : (List.range' 0 (num_accounts - 0)).map
        (fun i => SBPayload.createAccount (i % u32Size) (customerName i)
          1000000 1000000) =
        (List.range num_accounts).map
        (fun i => SBPayload.createAccount i (customerName i) 1000000 1000000) := by
      rw [Nat.sub_zero, ← List.range_eq_range']
      apply List.map_congr_left
      intro i hi
      rw [List.mem_range] at hi
      rw [Nat.mod_eq_of_lt (lt_of_lt_of_le hi hbound)]
    have hlen2 : ((List.range num_accounts).map
        (fun i => SBPayload.createAccount i (customerName i) 1000000 1000000)).length =
        num_accounts := by
      simp
    rw [hrest, hmap, List.take_left' hlen2]

/-- C1 witness: `num_accounts = 2, num_transactions = 1` under a concrete
stream; the record list has length 3 and starts with the two create-account
records. -/
theorem C1_witness :
    ([SBPayload.createAccount 0 "customer_000000" 1000000 1000000,
      SBPayload.createAccount 1 "customer_000001" 1000000 1000000,
      SBPayload.depositChecking 0 10] : List SBPayload).length = 2 + 1 ∧
    ([SBPayload.createAccount 0 "customer_000000" 1000000 1000000,
      SBPayload.createAccount 1 "customer_000001" 1000000 1000000,
      SBPayload.depositChecking 0 10] : List SBPayload).take 2 =
      (List.range 2).map
        (fun i => SBPayload.createAccount i (customerName i) 1000000 1000000) :=
  C1_theorem (fun _ => 0) 1 2 1
    [SBPayload.createAccount 0 "customer_000000" 1000000 1000000,
     SBPayload.createAccount 1 "customer_000001" 1000000 1000000,
     SBPayload.depositChecking 0 10] (by decide) rfl

/-! ## C4: distinct source and destination -/

/-- C4: in every successfully generated playlist, each SendPayment and
Amalgamate record has `source_customer_id ≠ dest_customer_id` (via the
partial correctness of `next_non_matching_in_range`, whose returned value
always differs from the excluded source id and lies below the account
count). -/
theorem C4_theorem (s : ℕ → ℕ) (loopFuel num_accounts num_transactions : ℕ)
    (l : List SBPayload)
    (h : create_smallbank_playlist s loopFuel num_accounts num_transactions = .ok l) :
    l.all distinctOk = true := by
  unfold create_smallbank_playlist at h
  exact runIter_distinct _ _ _ h

/-- C4 witness: a concrete run whose phase 2 draws a SendPayment record. -/
theorem C4_witness :
    ([SBPayload.createAccount 0 "customer_000000" 1000000 1000000,
      SBPayload.createAccount 1 "customer_000001" 1000000 1000000,
      SBPayload.sendPayment 0 1 11] : List SBPayload).all distinctOk = true :=
  C4_theorem (fun n => if n = 0 then 3 else if n = 1 then 0 else 1) 2 2 1
    [SBPayload.createAccount 0 "customer_000000" 1000000 1000000,
     SBPayload.createAccount 1 "customer_000001" 1000000 1000000,
     SBPayload.sendPayment 0 1 11] rfl

/-! ## C6: num_accounts = 0 with operations requested -/

/-- C6 counterexample: with `num_accounts = 0` and `num_transactions = 3`
the generation aborts (`gen_range(0, 0)` library panic); it does not return
any error value, and the code's `PlaylistError` type has no
`InvalidConfiguration` variant that it could return. -/
theorem C6_counterexample :
    create_smallbank_playlist (fun _ => 0) 5 0 3 = .panic := rfl

/-- C6 amended: whenever `num_accounts = 0` and `num_transactions > 0`, the
generator's first phase-2 step draws a variant and then calls
`gen_range(0, num_accounts as u32) = gen_range(0, 0)`, which panics: the
process aborts for every random stream and every loop bound, instead of an
`InvalidConfiguration` error value being returned. -/
theorem C6_theorem (s : ℕ → ℕ) (loopFuel num_transactions : ℕ)
    (h : 0 < num_transactions) :
    create_smallbank_playlist s loopFuel 0 num_transactions = .panic := by
  obtain ⟨m, rfl⟩ : ∃ m, num_transactions = m + 1 := ⟨num_transactions - 1, by omega⟩
  have hphase2 : ∀ t c, phase2payload s loopFuel 0 t c = .panic := by
    intro t c
    have h0 : ∀ cur : ℕ, genRange s cur 0 (0 % u32Size) = none := by
      intro cur
      simp [genRange, u32Size]
    unfold phase2payload
    unfold make_smallbank_deposit_checking_txn make_smallbank_write_check_txn
      make_smallbank_transact_savings_txn make_smallbank_send_payment_txn
      make_smallbank_amalgamate_txn
    simp only [h0, optStep]
    repeat' split
    all_goals rfl
  have hnext : iterNext s loopFuel ⟨0, 0, m + 1, 0, 0⟩ = .panic := by
    unfold iterNext
    rw [if_neg (show ¬((⟨0, 0, m + 1, 0, 0⟩ : GenState).currentAccount <
          (⟨0, 0, m + 1, 0, 0⟩ : GenState).numAccounts) by simp),
        if_pos (show (⟨0, 0, m + 1, 0, 0⟩ : GenState).currentTransaction <
          (⟨0, 0, m + 1, 0, 0⟩ : GenState).numTransactions by simp)]
    simp only [genRange_pos (show (2:ℕ) < 7 by omega), hphase2]
  unfold create_smallbank_playlist
  exact runIter_iterPanic _ hnext

/-- C6 witness: a concrete aborting configuration, via the amended
theorem. -/
theorem C6_witness : create_smallbank_playlist (fun _ => 0) 1 0 1 = .panic :=
  C6_theorem (fun _ => 0) 1 1 (by omega)
